import Mathlib

/-!
Shallow embedding of `src/opennem/workers/emissions.py` (the NEM emission-flow
worker) and proofs about its behaviour.

Numeric conventions: telemetry values loaded from the database are `coalesce`d
to concrete numbers, so dictionary values are modelled as rationals (`ℚ`).
IEEE-754 special values can only arise in this module from division (the
intensity coefficients `-power/demand` in `solve_flows`), so matrix and
result entries are modelled by `FVal`, a rational extended with `nan` and
signed infinities, and division producing them follows IEEE-754 semantics.
Python dictionaries are modelled as association lists where the entry added
last sits at the front, so `List.lookup` (first match wins) gives the value of
the most recent assignment, matching `dict` update/override semantics.
Fallible Python code (KeyError, raised exceptions, `ValueError`) is modelled
with `Except PyErr`.
-/

namespace OpenNEM

/-- IEEE-style float value: a finite rational, NaN, or a signed infinity. -/
inductive FVal where
  | fin (q : ℚ)
  | nan
  | pinf
  | ninf
deriving DecidableEq

/-- Float division `x / y` as numpy float64 performs it: division by zero
gives NaN for `0/0` and a signed infinity otherwise. -/
def qdivF (x y : ℚ) : FVal :=
  if y = 0 then
    (if x = 0 then FVal.nan else if 0 < x then FVal.pinf else FVal.ninf)
  else FVal.fin (x / y)

/-- IEEE-style addition on `FVal` (used by pandas group sums). -/
def FVal.add : FVal → FVal → FVal
  | FVal.nan, _ => FVal.nan
  | _, FVal.nan => FVal.nan
  | FVal.pinf, FVal.ninf => FVal.nan
  | FVal.ninf, FVal.pinf => FVal.nan
  | FVal.pinf, _ => FVal.pinf
  | _, FVal.pinf => FVal.pinf
  | FVal.ninf, _ => FVal.ninf
  | _, FVal.ninf => FVal.ninf
  | FVal.fin a, FVal.fin b => FVal.fin (a + b)

/-- Pandas `.sum()` over a float column: NaN entries are skipped
(`skipna=True`, the default), infinities propagate. -/
def fvalsSum (l : List FVal) : FVal :=
  (l.filter (fun x => !(x == FVal.nan))).foldl FVal.add (FVal.fin 0)

/-- Python exceptions that the worker's code paths can produce. -/
inductive PyErr where
  | keyError
  | exceptionErr (msg : String)
  | valueError (msg : String)
deriving DecidableEq

/-- Keys of the mixed-key Python dicts used by the worker: either a region
code string or an ordered `(region, region)` tuple. -/
inductive PyKey where
  | s (region : String)
  | p (a b : String)
deriving DecidableEq

instance : BEq PyKey := instBEqOfDecidableEq

/-- Boolean key comparison unfolds to decidable propositional equality. -/
@[simp] theorem pykey_beq_decide (x y : PyKey) : (x == y) = decide (x = y) :=
  rfl

/-- Lawful boolean equality unfolds to decidable propositional equality
(used to evaluate lookups over tuple-keyed rows). -/
theorem beq_decide {α : Type} [DecidableEq α] [BEq α] [LawfulBEq α]
    (x y : α) : (x == y) = decide (x = y) := by
  by_cases h : x = y
  · subst h; simp
  · simp [h, beq_eq_false_iff_ne]

/-- A Python dict with `PyKey` keys and float values: association list,
most recent assignment first. -/
abbrev Dict := List (PyKey × ℚ)

/-- Python dict item access `d[k]`: `KeyError` when the key is absent. -/
def getK (d : Dict) (k : PyKey) : Except PyErr ℚ :=
  match List.lookup k d with
  | some v => Except.ok v
  | none => Except.error PyErr.keyError

/-- One row of the interconnector telemetry frame
(`load_interconnector_intervals`): from/to region tags and the signed
`generated` value (already `coalesce`d to 0 when null). -/
structure IcRow where
  interconnector_region_from : String
  interconnector_region_to : String
  generated : ℚ
deriving DecidableEq

/-- One row of the per-facility energy/emissions frame
(`load_energy_intervals`), restricted to the fields the per-interval solver
reads. -/
structure EmRow where
  network_region : String
  energy : ℚ
  emissions : ℚ
deriving DecidableEq

/-- First-occurrence deduplication, the key set of a groupby result. -/
def dedupKeys {α : Type} [BEq α] (l : List α) : List α :=
  l.foldl (fun acc x => if acc.contains x then acc else acc ++ [x]) []

/-- `groupby(["interconnector_region_from", "interconnector_region_to"])
.generated.sum()`: one entry per distinct (from, to) pair with the summed
generated value. -/
def icGroups (rows : List IcRow) : List ((String × String) × ℚ) :=
  (dedupKeys (rows.map
      (fun r => (r.interconnector_region_from, r.interconnector_region_to)))).map
    (fun p =>
      (p, ((rows.filter (fun r =>
          (r.interconnector_region_from, r.interconnector_region_to) == p)).map
            (fun r => r.generated)).sum))

/-- `interconnector_dict`: `dx` is the grouped frame indexed by
`(interconnector_region_to, interconnector_region_from)`, `dy` the
column-renamed copy (so its index key is the original `(from, to)` order)
with `generated` negated; both are clipped at zero
(`loc[generated < 0] = 0`) and merged as `{**dx, **dy}` — `dy` entries
override `dx` entries, so `dy` comes first in lookup order. -/
def interconnector_dict (interconnector_di : List IcRow) :
    List ((String × String) × ℚ) :=
  let dx := (icGroups interconnector_di).map
    (fun g => ((g.1.2, g.1.1), max g.2 0))
  let dy := (icGroups interconnector_di).map
    (fun g => ((g.1.1, g.1.2), max (-g.2) 0))
  dy ++ dx

/-- `power`: region-keyed energy sums from the emissions frame, then
`update`d with the interconnector pair entries (updates override, hence
interconnector entries first). -/
def power (df_emissions : List EmRow) (df_ic : List IcRow) : Dict :=
  ((interconnector_dict df_ic).map (fun e => (PyKey.p e.1.1 e.1.2, e.2)))
    ++ ((dedupKeys (df_emissions.map (fun r => r.network_region))).map
      (fun reg =>
        (PyKey.s reg,
          ((df_emissions.filter (fun r => r.network_region == reg)).map
            (fun r => r.energy)).sum)))

/-- `simple_exports`: for one pre-determined radial edge, look up the
physical flow (returning 0 on `KeyError`), and divide it by the product of
the exporting region's energy and emissions sums when that product is
positive (`if emissions_sum and emissions_sum > 0`). -/
def simple_exports (emissions_di : List EmRow) (power_dict : Dict)
    (from_regionid to_regionid : String) : ℚ :=
  let dx := emissions_di.filter (fun r => r.network_region == from_regionid)
  match List.lookup (PyKey.p from_regionid to_regionid) power_dict with
  | none => 0
  | some ic_flow =>
    let emissions_sum := ((dx.map (fun r => r.energy)).sum)
      * ((dx.map (fun r => r.emissions)).sum)
    if 0 < emissions_sum then ic_flow / emissions_sum else 0

/-- The three hard-coded simple flows of `emissions`. -/
def simple_flows : List (String × String) :=
  [("QLD1", "NSW1"), ("SA1", "VIC1"), ("TAS1", "VIC1")]

/-- `emissions`: region-keyed emissions sums, then a pair-keyed entry per
simple flow holding its `simple_exports` value (assignments added after the
region entries, hence in front). -/
def emissions (df_emissions : List EmRow) (power_dict : Dict) : Dict :=
  (simple_flows.map (fun p =>
      (PyKey.p p.1 p.2, simple_exports df_emissions power_dict p.1 p.2)))
    ++ ((dedupKeys (df_emissions.map (fun r => r.network_region))).map
      (fun reg =>
        (PyKey.s reg,
          ((df_emissions.filter (fun r => r.network_region == reg)).map
            (fun r => r.emissions)).sum)))

/-- The per-region demand dict built by `nem_demand`. -/
structure DemandDict where
  NSW1 : ℚ
  QLD1 : ℚ
  SA1 : ℚ
  TAS1 : ℚ
  VIC1 : ℚ
deriving DecidableEq

/-- `nem_demand`: back-calculates per-region demand from generation plus
inbound minus outbound interconnector flow. Raises explicitly when
`"NSW1" not in power_dict`; any other absent key raises `KeyError` when
accessed. -/
def nem_demand (power_dict : Dict) : Except PyErr DemandDict :=
  if (List.lookup (PyKey.s "NSW1") power_dict).isNone then
    Except.error (PyErr.exceptionErr "Missing generation info")
  else do
    let gNSW ← getK power_dict (PyKey.s "NSW1")
    let fQN ← getK power_dict (PyKey.p "QLD1" "NSW1")
    let fVN ← getK power_dict (PyKey.p "VIC1" "NSW1")
    let fNV ← getK power_dict (PyKey.p "NSW1" "VIC1")
    let fNQ ← getK power_dict (PyKey.p "NSW1" "QLD1")
    let gQLD ← getK power_dict (PyKey.s "QLD1")
    let gSA ← getK power_dict (PyKey.s "SA1")
    let fVS ← getK power_dict (PyKey.p "VIC1" "SA1")
    let fSV ← getK power_dict (PyKey.p "SA1" "VIC1")
    let gTAS ← getK power_dict (PyKey.s "TAS1")
    let fVT ← getK power_dict (PyKey.p "VIC1" "TAS1")
    let fTV ← getK power_dict (PyKey.p "TAS1" "VIC1")
    let gVIC ← getK power_dict (PyKey.s "VIC1")
    Except.ok
      { NSW1 := gNSW + fQN + fVN - fNV - fNQ
        QLD1 := gQLD + fNQ - fQN
        SA1 := gSA + fVS - fSV
        TAS1 := gTAS + fVT - fTV
        VIC1 := gVIC + fNV + fSV + fTV - fVN - fVT - fVS }

/-- The 10×10 coefficient matrix, row-major. -/
abbrev Mat := List (List FVal)

/-- `np.zeros((10, 10))`. -/
def zerosMat : Mat := List.replicate 10 (List.replicate 10 (FVal.fin 0))

/-- `a[row][col] = v`. -/
def setCell (m : Mat) (row col : ℕ) (v : FVal) : Mat :=
  m.set row ((m.getD row []).set col v)

/-- `a[row][col]` with the padding default never reached on the 10×10
matrices built here. -/
def getCell (m : Mat) (row col : ℕ) : FVal :=
  (m.getD row []).getD col (FVal.fin 0)

/-- `_var_dict = dict(zip(["s", "q", "t", "n", "v", "v-n", "n-q", "n-v",
"v-s", "v-t"], range(10)))`. -/
def var_dict : List (String × ℕ) :=
  [("s", 0), ("q", 1), ("t", 2), ("n", 3), ("v", 4),
   ("v-n", 5), ("n-q", 6), ("n-v", 7), ("v-s", 8), ("v-t", 9)]

/-- `_var_dict[_var]`; every caller passes a key of `var_dict`, so the
default is never reached. -/
def varIdx (v : String) : ℕ := (List.lookup v var_dict).getD 0

/-- `fill_row`: assign each `(variable, value)` pair into the given row. -/
def fill_row (a : Mat) (row : ℕ) (pairs : List (String × FVal)) : Mat :=
  pairs.foldl (fun acc pr => setCell acc row (varIdx pr.1) pr.2) a

/-- `fill_constant`: assign a value at the variable's index of the constant
vector. -/
def fill_constant (b : List FVal) (v : String) (value : FVal) : List FVal :=
  b.set (varIdx v) value

/-- The coefficient matrix of `solve_flows` (lines building `a`): five
emissions balance rows then five emissions intensity rows, whose
coefficients are `-power_dict[(from, to)] / demand_dict[region]`. -/
def buildA (power_dict : Dict) (demand_dict : DemandDict) :
    Except PyErr Mat := do
  let a0 := fill_row zerosMat 0 [("s", FVal.fin 1), ("v-s", FVal.fin (-1))]
  let a1 := fill_row a0 1 [("q", FVal.fin 1), ("n-q", FVal.fin (-1))]
  let a2 := fill_row a1 2 [("t", FVal.fin 1), ("v-t", FVal.fin (-1))]
  let a3 := fill_row a2 3
    [("n", FVal.fin 1), ("v-n", FVal.fin (-1)), ("n-q", FVal.fin 1),
     ("n-v", FVal.fin 1)]
  let a4 := fill_row a3 4
    [("v", FVal.fin 1), ("v-n", FVal.fin 1), ("n-v", FVal.fin (-1)),
     ("v-s", FVal.fin 1), ("v-t", FVal.fin 1)]
  let pNQ ← getK power_dict (PyKey.p "NSW1" "QLD1")
  let a5 := fill_row a4 5
    [("n-q", FVal.fin 1), ("n", qdivF (-pNQ) demand_dict.NSW1)]
  let pNV ← getK power_dict (PyKey.p "NSW1" "VIC1")
  let a6 := fill_row a5 6
    [("n-v", FVal.fin 1), ("n", qdivF (-pNV) demand_dict.NSW1)]
  let pVT ← getK power_dict (PyKey.p "VIC1" "TAS1")
  let a7 := fill_row a6 7
    [("v-t", FVal.fin 1), ("v", qdivF (-pVT) demand_dict.VIC1)]
  let pVS ← getK power_dict (PyKey.p "VIC1" "SA1")
  let a8 := fill_row a7 8
    [("v-s", FVal.fin 1), ("v", qdivF (-pVS) demand_dict.VIC1)]
  let pVN ← getK power_dict (PyKey.p "VIC1" "NSW1")
  let a9 := fill_row a8 9
    [("v-n", FVal.fin 1), ("v", qdivF (-pVN) demand_dict.VIC1)]
  Except.ok a9

/-- The constant vector of `solve_flows` (`b = np.zeros((10, 1))` followed
by the `fill_constant` calls). -/
def buildB (emissions_dict : Dict) : Except PyErr (List FVal) := do
  let b0 := List.replicate 10 (FVal.fin 0)
  let eSA ← getK emissions_dict (PyKey.s "SA1")
  let eSV ← getK emissions_dict (PyKey.p "SA1" "VIC1")
  let b1 := fill_constant b0 "s" (FVal.fin (eSA - eSV))
  let eQLD ← getK emissions_dict (PyKey.s "QLD1")
  let eQN ← getK emissions_dict (PyKey.p "QLD1" "NSW1")
  let b2 := fill_constant b1 "q" (FVal.fin (eQLD - eQN))
  let eTAS ← getK emissions_dict (PyKey.s "TAS1")
  let eTV ← getK emissions_dict (PyKey.p "TAS1" "VIC1")
  let b3 := fill_constant b2 "t" (FVal.fin (eTAS - eTV))
  let eNSW ← getK emissions_dict (PyKey.s "NSW1")
  let b4 := fill_constant b3 "n" (FVal.fin (eNSW + eQN))
  let eVIC ← getK emissions_dict (PyKey.s "VIC1")
  let b5 := fill_constant b4 "v" (FVal.fin (eVIC + eSV + eTV))
  Except.ok b5

/-- The numeric policy line `b[np.isnan(b)] = 0`: applied to the constant
vector only. -/
def cleanNanVec (b : List FVal) : List FVal :=
  b.map (fun x => if x == FVal.nan then FVal.fin 0 else x)

/-- The linear system actually handed to the dense solver by `solve_flows`:
the coefficient matrix as built (no NaN replacement) and the constant
vector after `b[np.isnan(b)] = 0`. -/
def solveSystem (power_dict : Dict) (demand_dict : DemandDict)
    (emissions_dict : Dict) : Except PyErr (Mat × List FVal) := do
  let a ← buildA power_dict demand_dict
  let b ← buildB emissions_dict
  Except.ok (a, cleanNanVec b)

/-- The dense linear solve (`np.linalg.solve` wrapped in try/except):
modelled as an oracle that either produces a solution vector or fails. -/
abbrev Solver := Mat → List FVal → Option (List FVal)

/-- One output row of the per-interval frame: directed region pair and its
`EMISSIONS` value. -/
abbrev DFr := List ((String × String) × FVal)

/-- The `emission_flows` dict shaped into the returned frame: the five
solved edges (present only when the solve produced a result, read from
fixed positions of the solution vector) followed by the three simple edges
copied from `emissions_dict`. -/
def flowRows (result : Option (List FVal)) (eQN eTV eSV : ℚ) : DFr :=
  (match result with
   | some r =>
     [(("NSW1", "QLD1"), r.getD 6 (FVal.fin 0)),
      (("VIC1", "NSW1"), r.getD 5 (FVal.fin 0)),
      (("NSW1", "VIC1"), r.getD 7 (FVal.fin 0)),
      (("VIC1", "SA1"), r.getD 8 (FVal.fin 0)),
      (("VIC1", "TAS1"), r.getD 9 (FVal.fin 0))]
   | none => [])
  ++ [(("QLD1", "NSW1"), FVal.fin eQN),
      (("TAS1", "VIC1"), FVal.fin eTV),
      (("SA1", "VIC1"), FVal.fin eSV)]

/-- `solve_flows`: build the per-interval dicts, back-calculate demand
(returning `None` when that raises), assemble and clean the linear system,
run the solver, and shape the emission flows. An uncaught exception past
the demand step is surfaced as `Except.error`. -/
def solve_flows (emissions_di : List EmRow) (interconnector_di : List IcRow)
    (linsolve : Solver) : Except PyErr (Option DFr) :=
  let power_dict := power emissions_di interconnector_di
  let emissions_dict := emissions emissions_di power_dict
  match nem_demand power_dict with
  | Except.error _ => Except.ok none
  | Except.ok demand_dict => do
    let sys ← solveSystem power_dict demand_dict emissions_dict
    let result := linsolve sys.1 sys.2
    let eQN ← getK emissions_dict (PyKey.p "QLD1" "NSW1")
    let eTV ← getK emissions_dict (PyKey.p "TAS1" "VIC1")
    let eSV ← getK emissions_dict (PyKey.p "SA1" "VIC1")
    Except.ok (some (flowRows result eQN eTV eSV))

/-- One 5-minute interval's worth of input data, as sliced by the loop of
`calculate_emission_flows`. -/
structure Interval where
  dt : ℤ
  em : List EmRow
  ic : List IcRow

/-- `calculate_emission_flows`: iterate the intervals in order, recording
`results[dt] = solve_flows(...)` for each; an uncaught exception aborts the
loop. -/
def calculate_emission_flows (ivs : List Interval) (linsolve : Solver) :
    Except PyErr (List (ℤ × Option DFr)) :=
  match ivs with
  | [] => Except.ok []
  | iv :: rest => do
    let r ← solve_flows iv.em iv.ic linsolve
    let rs ← calculate_emission_flows rest linsolve
    Except.ok ((iv.dt, r) :: rs)

/-- `region_flows`: the same reconciliation as `interconnector_dict` (dx
indexed `(to, from)`, dy the renamed negated copy, both clipped at zero),
concatenated and group-summed into per-region energy imports (grouping the
first index label) and exports (second label), keyed by
`(trading_interval=day, "NEM", region)`. The two group results cover the
same region set (every pair endpoint occurs in both positions across
`dx ++ dy`), so the frame alignment introduces no missing values. -/
def region_flows (interconnector_di : List IcRow) (day : ℤ) :
    List ((ℤ × String × String) × (ℚ × ℚ)) :=
  let dx := (icGroups interconnector_di).map
    (fun g => ((g.1.2, g.1.1), max g.2 0))
  let dy := (icGroups interconnector_di).map
    (fun g => ((g.1.1, g.1.2), max (-g.2) 0))
  let f := dx ++ dy
  (dedupKeys (f.map (fun e => e.1.1))).map
    (fun reg =>
      ((day, "NEM", reg),
       (((f.filter (fun e => e.1.1 == reg)).map (fun e => e.2)).sum,
        ((f.filter (fun e => e.1.2 == reg)).map (fun e => e.2)).sum)))

/-- `pd.concat(results_dict)` after dropping `None` members: each kept
per-interval frame contributes its rows tagged with the interval
(`level_0`). -/
def concatRows (results : List (ℤ × Option DFr)) :
    List (ℤ × (String × String) × FVal) :=
  results.foldr
    (fun r acc =>
      (match r.2 with
       | some df => df.map (fun row => (r.1, row))
       | none => []) ++ acc)
    []

/-- `flow_series_clean`: group-sum the concatenated per-interval emission
flows by source region (`emissions_exports`) and destination region
(`emissions_imports`), keyed by `(trading_interval=day, "NEM", region)`.
The frame is built from the two group series; a region missing from one
side (possible when an interval produced only the three simple edges) gets
NaN for that column by pandas alignment. -/
def flow_series_clean (rows : List (ℤ × (String × String) × FVal))
    (day : ℤ) : List ((ℤ × String × String) × (FVal × FVal)) :=
  let fromRegions := dedupKeys (rows.map (fun r => r.2.1.1))
  let toRegions := dedupKeys (rows.map (fun r => r.2.1.2))
  (dedupKeys (fromRegions ++ toRegions)).map
    (fun reg =>
      ((day, "NEM", reg),
       ((if fromRegions.contains reg then
           fvalsSum ((rows.filter (fun r => r.2.1.1 == reg)).map
             (fun r => r.2.2))
         else FVal.nan),
        (if toRegions.contains reg then
           fvalsSum ((rows.filter (fun r => r.2.1.2 == reg)).map
             (fun r => r.2.2))
         else FVal.nan))))

/-- `left.merge(right, left_index=True, right_index=True)`: an inner join
on the shared index keys (unique here by construction). -/
def mergeIndex {K A B : Type} [BEq K] (left : List (K × A))
    (right : List (K × B)) : List (K × A × B) :=
  left.filterMap (fun e => (List.lookup e.1 right).map (fun b => (e.1, e.2, b)))

/-- One row of the day-level aggregate `total_series`: key, emissions
(exports, imports), energy (imports, exports). -/
abbrev MergedRow := ((ℤ × String × String) × ((FVal × FVal) × (ℚ × ℚ)))

/-- The aggregation tail of `calc_day`, taking the already computed
per-interval results and the loaded interconnector frame: return `None`
when `results_dict` is empty, or when `pd.concat` raises because every
member is `None` (caught and logged); otherwise merge the emissions series
with the energy series. -/
def calc_day (results : List (ℤ × Option DFr)) (df_ic : List IcRow)
    (day : ℤ) : Option (List MergedRow) :=
  if results.isEmpty then none
  else if (results.filterMap Prod.snd).isEmpty then none
  else some (mergeIndex (flow_series_clean (concatRows results) day)
    (region_flows df_ic day))

/-- Python truthiness of the `Optional[pd.DataFrame]` returned by
`calc_day`: `bool(None)` is `False`, while `bool` of any `DataFrame`
raises `ValueError` (pandas refuses ambiguous truth values). -/
def df_truthiness {α : Type} (v : Option (List α)) : Except PyErr Bool :=
  match v with
  | none => Except.ok false
  | some _ =>
    Except.error (PyErr.valueError "The truth value of a DataFrame is ambiguous.")

/-- `run_and_store_emission_flows` given the day's `calc_day` outcome: the
guard `if not emissions_day or emissions_day.empty` first evaluates
`not emissions_day`; the bulk insert is a collaborator call reporting the
number of rows written. -/
def run_and_store_emission_flows (emissions_day : Option (List MergedRow))
    (insert : List MergedRow → ℕ) : Except PyErr ℕ := do
  let b ← df_truthiness emissions_day
  if !b then Except.ok 0
  else
    match emissions_day with
    | none => Except.ok 0
    | some df => if df.isEmpty then Except.ok 0 else Except.ok (insert df)

/-- The backward day iteration of `run_emission_update_day`:
`while current_day >= date_min`, calling the per-day pipeline on each
visited day. The loop body has no try/except, so an exception raised by an
invocation propagates out and the remaining days are never visited. The
first component records the trace of days on which the pipeline was
actually invoked (the calls made, in order); the second is the outcome —
the per-day results when every invocation returned, or the propagating
exception. -/
def dayLoopRun {α : Type} (runDay : ℤ → Except PyErr α)
    (current date_min : ℤ) : List ℤ × Except PyErr (List α) :=
  if hc : date_min ≤ current then
    match runDay current with
    | Except.error e => ([current], Except.error e)
    | Except.ok r =>
      let rest := dayLoopRun runDay (current - 1) date_min
      (current :: rest.1, Except.map (fun rs => r :: rs) rest.2)
  else ([], Except.ok [])
termination_by (current - date_min + 1).toNat
decreasing_by omega

/-- `run_emission_update_day(days, day)`: run the per-day pipeline for each
day from `day` backward to `day - days`, aborting when an invocation
raises. The per-day pipeline is passed in as `runDay` (it is invoked on one
day at a time, taking nothing else). -/
def run_emission_update_day {α : Type} (runDay : ℤ → Except PyErr α)
    (days : ℕ) (day : ℤ) : List ℤ × Except PyErr (List α) :=
  dayLoopRun runDay day (day - days)

/-- The source signature defaults `days` to 1 (and backfills from the last
complete day when `day` is omitted, which requires the clock and is out of
scope here): the default-argument call runs with a day count of one. -/
def run_emission_update_day_default {α : Type}
    (runDay : ℤ → Except PyErr α) (day : ℤ) :
    List ℤ × Except PyErr (List α) :=
  run_emission_update_day runDay 1 day

/-- A per-day pipeline invocation that completes normally on every day,
returning the day it was given. -/
def exRunDayOk : ℤ → Except PyErr ℤ := fun d => Except.ok d

/-- A per-day pipeline invocation for a day whose `calc_day` produced a
one-row frame: `run_and_store_emission_flows` then raises `ValueError`
from `bool(DataFrame)` before inserting anything. -/
def exRunDayRaises : ℤ → Except PyErr ℕ := fun _ =>
  run_and_store_emission_flows
    (some [((0, "NEM", "QLD1"), ((FVal.fin 1, FVal.fin 1), (1, 1)))])
    List.length

/-! ### Concrete example inputs -/

/-- A well-formed single-interval emissions frame: one generation row per
region. -/
def exEm : List EmRow :=
  [⟨"NSW1", 10, 8⟩, ⟨"QLD1", 6, 9⟩, ⟨"SA1", 4, 2⟩, ⟨"TAS1", 3, 1⟩,
   ⟨"VIC1", 20, 12⟩]

/-- Interconnector telemetry for the same interval: one signed row per
physical link (the AEMO single-row-per-link shape), covering all four NEM
links, so all eight directed pair keys exist. -/
def exIc : List IcRow :=
  [⟨"NSW1", "QLD1", 30⟩, ⟨"VIC1", "NSW1", 20⟩, ⟨"VIC1", "SA1", 10⟩,
   ⟨"VIC1", "TAS1", 5⟩]

/-- An emissions frame missing the TAS1 region entirely. -/
def exEmMissing : List EmRow :=
  [⟨"NSW1", 10, 8⟩, ⟨"QLD1", 6, 9⟩, ⟨"SA1", 4, 2⟩, ⟨"VIC1", 20, 12⟩]

/-- A degenerate interval: NSW1 generates nothing and all flows touching
NSW1 are zero, so back-calculated NSW1 demand is zero while the
NSW1→QLD1 flow is zero, making the intensity coefficient `0/0`. -/
def exEm3 : List EmRow :=
  [⟨"NSW1", 0, 0⟩, ⟨"QLD1", 6, 9⟩, ⟨"SA1", 4, 2⟩, ⟨"TAS1", 3, 1⟩,
   ⟨"VIC1", 20, 12⟩]

/-- Interconnector telemetry matching `exEm3`: zero flow on both NSW1
links. -/
def exIc3 : List IcRow :=
  [⟨"NSW1", "QLD1", 0⟩, ⟨"VIC1", "NSW1", 0⟩, ⟨"VIC1", "SA1", 10⟩,
   ⟨"VIC1", "TAS1", 5⟩]

/-- Interconnector rows with telemetry in both directions of one pair, the
input of the reconciliation example. -/
def exIcBoth : List IcRow := [⟨"NSW1", "QLD1", 150⟩, ⟨"QLD1", "NSW1", 40⟩]

/-- A solver that always fails (models `np.linalg.solve` raising
`LinAlgError`). -/
def solverFail : Solver := fun _ _ => none

/-- A solver producing the all-ones vector. -/
def solverOne : Solver := fun _ _ => some (List.replicate 10 (FVal.fin 1))

/-- A solver producing the all-twos vector. -/
def solverTwo : Solver := fun _ _ => some (List.replicate 10 (FVal.fin 2))

/-- A power dictionary holding all five region generation entries and all
eight directed interconnector flows with distinct values. -/
def exPowerDict : Dict :=
  [(PyKey.s "NSW1", 1), (PyKey.s "QLD1", 2), (PyKey.s "SA1", 3),
   (PyKey.s "TAS1", 4), (PyKey.s "VIC1", 5), (PyKey.p "QLD1" "NSW1", 6),
   (PyKey.p "VIC1" "NSW1", 7), (PyKey.p "NSW1" "VIC1", 8),
   (PyKey.p "NSW1" "QLD1", 9), (PyKey.p "VIC1" "SA1", 10),
   (PyKey.p "SA1" "VIC1", 11), (PyKey.p "VIC1" "TAS1", 12),
   (PyKey.p "TAS1" "VIC1", 13)]

/-- Does the matrix contain a NaN entry anywhere? -/
def matHasNan (m : Mat) : Bool :=
  m.any (fun row => row.any (fun x => x == FVal.nan))

/-- A solver that fails exactly when handed a coefficient matrix containing
NaN, and otherwise returns the zero vector. -/
def solverProbe : Solver := fun a _ =>
  if matHasNan a then none else some (List.replicate 10 (FVal.fin 0))

/-! ### Evaluation lemmas for the example inputs -/

theorem power_exEm_eval : power exEm exIc =
    [(PyKey.p "NSW1" "QLD1", 0), (PyKey.p "VIC1" "NSW1", 0),
     (PyKey.p "VIC1" "SA1", 0), (PyKey.p "VIC1" "TAS1", 0),
     (PyKey.p "QLD1" "NSW1", 30), (PyKey.p "NSW1" "VIC1", 20),
     (PyKey.p "SA1" "VIC1", 10), (PyKey.p "TAS1" "VIC1", 5),
     (PyKey.s "NSW1", 10), (PyKey.s "QLD1", 6), (PyKey.s "SA1", 4),
     (PyKey.s "TAS1", 3), (PyKey.s "VIC1", 20)] := by
  norm_num +decide [power, interconnector_dict, icGroups, dedupKeys, exEm, exIc]

theorem emissions_exEm_eval : emissions exEm (power exEm exIc) =
    [(PyKey.p "QLD1" "NSW1", 5 / 9), (PyKey.p "SA1" "VIC1", 5 / 4),
     (PyKey.p "TAS1" "VIC1", 5 / 3),
     (PyKey.s "NSW1", 8), (PyKey.s "QLD1", 9), (PyKey.s "SA1", 2),
     (PyKey.s "TAS1", 1), (PyKey.s "VIC1", 12)] := by
  rw [power_exEm_eval]
  norm_num +decide [emissions, simple_exports, simple_flows, dedupKeys, exEm,
    List.lookup]

theorem nem_demand_exEm_eval :
    nem_demand (power exEm exIc) = Except.ok ⟨20, -24, -6, -2, 55⟩ := by
  rw [power_exEm_eval]
  norm_num +decide [nem_demand, getK, List.lookup, bind, Except.bind]

theorem solveSystem_exEm_ok :
    ∃ s, solveSystem (power exEm exIc) ⟨20, -24, -6, -2, 55⟩
      (emissions exEm (power exEm exIc)) = Except.ok s := by
  rw [emissions_exEm_eval, power_exEm_eval]
  exact ⟨_, rfl⟩

theorem getK_em_QN_eval :
    getK (emissions exEm (power exEm exIc)) (PyKey.p "QLD1" "NSW1") =
      Except.ok (5 / 9) := by
  rw [emissions_exEm_eval]; rfl

theorem getK_em_TV_eval :
    getK (emissions exEm (power exEm exIc)) (PyKey.p "TAS1" "VIC1") =
      Except.ok (5 / 3) := by
  rw [emissions_exEm_eval]; rfl

theorem getK_em_SV_eval :
    getK (emissions exEm (power exEm exIc)) (PyKey.p "SA1" "VIC1") =
      Except.ok (5 / 4) := by
  rw [emissions_exEm_eval]; rfl

theorem power_exEm3_eval : power exEm3 exIc3 =
    [(PyKey.p "NSW1" "QLD1", 0), (PyKey.p "VIC1" "NSW1", 0),
     (PyKey.p "VIC1" "SA1", 0), (PyKey.p "VIC1" "TAS1", 0),
     (PyKey.p "QLD1" "NSW1", 0), (PyKey.p "NSW1" "VIC1", 0),
     (PyKey.p "SA1" "VIC1", 10), (PyKey.p "TAS1" "VIC1", 5),
     (PyKey.s "NSW1", 0), (PyKey.s "QLD1", 6), (PyKey.s "SA1", 4),
     (PyKey.s "TAS1", 3), (PyKey.s "VIC1", 20)] := by
  norm_num +decide [power, interconnector_dict, icGroups, dedupKeys, exEm3,
    exIc3]

theorem emissions_exEm3_eval : emissions exEm3 (power exEm3 exIc3) =
    [(PyKey.p "QLD1" "NSW1", 0), (PyKey.p "SA1" "VIC1", 5 / 4),
     (PyKey.p "TAS1" "VIC1", 5 / 3),
     (PyKey.s "NSW1", 0), (PyKey.s "QLD1", 9), (PyKey.s "SA1", 2),
     (PyKey.s "TAS1", 1), (PyKey.s "VIC1", 12)] := by
  rw [power_exEm3_eval]
  norm_num +decide [emissions, simple_exports, simple_flows, dedupKeys, exEm3,
    List.lookup]

theorem nem_demand_exEm3_eval :
    nem_demand (power exEm3 exIc3) = Except.ok ⟨0, 6, -6, -2, 35⟩ := by
  rw [power_exEm3_eval]
  norm_num +decide [nem_demand, getK, List.lookup, bind, Except.bind]

/-! ### General lemmas -/

/-- Unfolding the backward day loop over a closed integer range, when
every invocation in the range returns normally: each day is invoked, in
descending order, and the results accumulate in the same order. -/
theorem dayLoopRun_ok {α : Type} (runDay : ℤ → Except PyErr α) (N : ℕ)
    (D : ℤ)
    (hok : ∀ d : ℤ, D - (N : ℤ) ≤ d → d ≤ D → ∃ a, runDay d = Except.ok a) :
    (dayLoopRun runDay D (D - (N : ℤ))).1 =
      (List.range (N + 1)).map (fun i : ℕ => D - (i : ℤ)) ∧
    ∃ rs : List α, (dayLoopRun runDay D (D - (N : ℤ))).2 = Except.ok rs ∧
      rs.length = N + 1 := by
  induction N generalizing D with
  | zero =>
    obtain ⟨a, ha⟩ := hok D (by norm_num) le_rfl
    rw [dayLoopRun, dif_pos (by omega : D - ((0 : ℕ) : ℤ) ≤ D), ha]
    rw [dayLoopRun, dif_neg (by omega : ¬(D - ((0 : ℕ) : ℤ) ≤ D - 1))]
    constructor
    · simp [List.range_succ]
    · exact ⟨[a], rfl, rfl⟩
  | succ n ih =>
    obtain ⟨a, ha⟩ := hok D (by push_cast; omega) le_rfl
    rw [dayLoopRun, dif_pos (by push_cast; omega : D - ((n + 1 : ℕ) : ℤ) ≤ D),
      ha]
    have hsh : D - ((n + 1 : ℕ) : ℤ) = (D - 1) - (n : ℤ) := by push_cast; ring
    rw [hsh]
    have hok' : ∀ d : ℤ, (D - 1) - (n : ℤ) ≤ d → d ≤ D - 1 →
        ∃ a, runDay d = Except.ok a := by
      intro d h1 h2
      refine hok d ?_ (by omega)
      push_cast
      push_cast at h1
      omega
    obtain ⟨htr, rs, hrs, hlen⟩ := ih (D - 1) hok'
    constructor
    · show D :: (dayLoopRun runDay (D - 1) ((D - 1) - (n : ℤ))).1 =
        (List.range (n + 1 + 1)).map (fun i : ℕ => D - (i : ℤ))
      rw [htr]
      conv_rhs => rw [List.range_succ_eq_map, List.map_cons, List.map_map]
      congr 1
      · norm_num
      · apply List.map_congr_left
        intro i _
        simp only [Function.comp_apply]
        push_cast
        ring
    · refine ⟨a :: rs, ?_, by simp [hlen]⟩
      show Except.map (fun l => a :: l)
        (dayLoopRun runDay (D - 1) ((D - 1) - (n : ℤ))).2 = _
      rw [hrs]
      rfl

/-- Evaluating `nem_demand` on a dictionary holding all thirteen required
entries. -/
theorem nem_demand_eval (p : Dict)
    (gN gQ gS gT gV fQN fVN fNV fNQ fVS fSV fVT fTV : ℚ)
    (hgN : List.lookup (PyKey.s "NSW1") p = some gN)
    (hfQN : List.lookup (PyKey.p "QLD1" "NSW1") p = some fQN)
    (hfVN : List.lookup (PyKey.p "VIC1" "NSW1") p = some fVN)
    (hfNV : List.lookup (PyKey.p "NSW1" "VIC1") p = some fNV)
    (hfNQ : List.lookup (PyKey.p "NSW1" "QLD1") p = some fNQ)
    (hgQ : List.lookup (PyKey.s "QLD1") p = some gQ)
    (hgS : List.lookup (PyKey.s "SA1") p = some gS)
    (hfVS : List.lookup (PyKey.p "VIC1" "SA1") p = some fVS)
    (hfSV : List.lookup (PyKey.p "SA1" "VIC1") p = some fSV)
    (hgT : List.lookup (PyKey.s "TAS1") p = some gT)
    (hfVT : List.lookup (PyKey.p "VIC1" "TAS1") p = some fVT)
    (hfTV : List.lookup (PyKey.p "TAS1" "VIC1") p = some fTV)
    (hgV : List.lookup (PyKey.s "VIC1") p = some gV) :
    nem_demand p = Except.ok
      { NSW1 := gN + fQN + fVN - fNV - fNQ
        QLD1 := gQ + fNQ - fQN
        SA1 := gS + fVS - fSV
        TAS1 := gT + fVT - fTV
        VIC1 := gV + fNV + fSV + fTV - fVN - fVT - fVS } := by
  simp [nem_demand, getK, hgN, hfQN, hfVN, hfNV, hfNQ, hgQ, hgS, hfVS, hfSV,
    hgT, hfVT, hfTV, hgV, bind, Except.bind]

/-- Inverting a successful `Except` bind. -/
theorem except_bind_ok_inv {ε α β : Type} (x : Except ε α)
    (f : α → Except ε β) (b : β) (h : (x >>= f) = Except.ok b) :
    ∃ a, x = Except.ok a ∧ f a = Except.ok b := by
  cases x with
  | error e => simp [bind, Except.bind] at h
  | ok a => exact ⟨a, rfl, by simpa [bind, Except.bind] using h⟩

/-- A successful dict access certifies the key was present. -/
theorem getK_ok_isSome (p : Dict) (k : PyKey) (v : ℚ)
    (h : getK p k = Except.ok v) : (List.lookup k p).isSome = true := by
  unfold getK at h
  split at h <;> simp_all

/-- A successful `nem_demand` run certifies that all thirteen keys it reads
are present in the power dictionary. -/
theorem nem_demand_ok_keys (p : Dict) (d : DemandDict)
    (h : nem_demand p = Except.ok d) :
    (List.lookup (PyKey.s "NSW1") p).isSome = true ∧
    (List.lookup (PyKey.s "QLD1") p).isSome = true ∧
    (List.lookup (PyKey.s "SA1") p).isSome = true ∧
    (List.lookup (PyKey.s "TAS1") p).isSome = true ∧
    (List.lookup (PyKey.s "VIC1") p).isSome = true ∧
    (List.lookup (PyKey.p "QLD1" "NSW1") p).isSome = true ∧
    (List.lookup (PyKey.p "VIC1" "NSW1") p).isSome = true ∧
    (List.lookup (PyKey.p "NSW1" "VIC1") p).isSome = true ∧
    (List.lookup (PyKey.p "NSW1" "QLD1") p).isSome = true ∧
    (List.lookup (PyKey.p "VIC1" "SA1") p).isSome = true ∧
    (List.lookup (PyKey.p "SA1" "VIC1") p).isSome = true ∧
    (List.lookup (PyKey.p "VIC1" "TAS1") p).isSome = true ∧
    (List.lookup (PyKey.p "TAS1" "VIC1") p).isSome = true := by
  rw [nem_demand] at h
  split at h
  · exact absurd h (by simp)
  · rename_i hN
    obtain ⟨v1, hv1, h⟩ := except_bind_ok_inv _ _ _ h
    obtain ⟨v2, hv2, h⟩ := except_bind_ok_inv _ _ _ h
    obtain ⟨v3, hv3, h⟩ := except_bind_ok_inv _ _ _ h
    obtain ⟨v4, hv4, h⟩ := except_bind_ok_inv _ _ _ h
    obtain ⟨v5, hv5, h⟩ := except_bind_ok_inv _ _ _ h
    obtain ⟨v6, hv6, h⟩ := except_bind_ok_inv _ _ _ h
    obtain ⟨v7, hv7, h⟩ := except_bind_ok_inv _ _ _ h
    obtain ⟨v8, hv8, h⟩ := except_bind_ok_inv _ _ _ h
    obtain ⟨v9, hv9, h⟩ := except_bind_ok_inv _ _ _ h
    obtain ⟨v10, hv10, h⟩ := except_bind_ok_inv _ _ _ h
    obtain ⟨v11, hv11, h⟩ := except_bind_ok_inv _ _ _ h
    obtain ⟨v12, hv12, h⟩ := except_bind_ok_inv _ _ _ h
    obtain ⟨v13, hv13, h⟩ := except_bind_ok_inv _ _ _ h
    exact ⟨getK_ok_isSome _ _ _ hv1, getK_ok_isSome _ _ _ hv6,
      getK_ok_isSome _ _ _ hv7, getK_ok_isSome _ _ _ hv10,
      getK_ok_isSome _ _ _ hv13, getK_ok_isSome _ _ _ hv2,
      getK_ok_isSome _ _ _ hv3, getK_ok_isSome _ _ _ hv4,
      getK_ok_isSome _ _ _ hv5, getK_ok_isSome _ _ _ hv8,
      getK_ok_isSome _ _ _ hv9, getK_ok_isSome _ _ _ hv11,
      getK_ok_isSome _ _ _ hv12⟩

/-- Looking up a region-string key skips any prefix of pair-keyed
entries. -/
theorem lookup_s_pair_prefix (l : List (PyKey × ℚ)) (tail : Dict)
    (r : String) (hl : ∀ e ∈ l, ∃ a b v, e = (PyKey.p a b, v)) :
    List.lookup (PyKey.s r) (l ++ tail) = List.lookup (PyKey.s r) tail := by
  induction l with
  | nil => rfl
  | cons e l ih =>
    obtain ⟨a, b, v, rfl⟩ := hl e (List.mem_cons_self e l)
    simp only [List.cons_append, List.lookup, pykey_beq_decide]
    simp only [show (PyKey.s r = PyKey.p a b) = False by simp, decide_False]
    exact ih (fun e he => hl e (List.mem_cons_of_mem _ he))

/-- Looking up a region-string key in a region-keyed map built from a
function of the region. -/
theorem lookup_s_regionMap (rs : List String) (val : String → ℚ)
    (r : String) :
    List.lookup (PyKey.s r) (rs.map (fun reg => (PyKey.s reg, val reg))) =
      if r ∈ rs then some (val r) else none := by
  induction rs with
  | nil => rfl
  | cons a rs ih =>
    by_cases h : r = a
    · subst h
      simp [List.lookup]
    · simp [List.lookup, pykey_beq_decide, h, ih, List.mem_cons]

/-- The prefixes of `power` and `emissions` ahead of the region entries are
entirely pair-keyed, so region lookups in either dict reduce to the shared
region key set of the emissions frame. -/
theorem lookup_s_power (em : List EmRow) (ic : List IcRow) (r : String) :
    List.lookup (PyKey.s r) (power em ic) =
      if r ∈ dedupKeys (em.map (fun x => x.network_region)) then
        some (((em.filter (fun x => x.network_region == r)).map
          (fun x => x.energy)).sum)
      else none := by
  rw [power, lookup_s_pair_prefix, lookup_s_regionMap]
  intro e he
  simp only [List.mem_map] at he
  obtain ⟨x, _, rfl⟩ := he
  exact ⟨x.1.1, x.1.2, x.2, rfl⟩

/-- Region lookups in the emissions dictionary. -/
theorem lookup_s_emissions (em : List EmRow) (pd : Dict) (r : String) :
    List.lookup (PyKey.s r) (emissions em pd) =
      if r ∈ dedupKeys (em.map (fun x => x.network_region)) then
        some (((em.filter (fun x => x.network_region == r)).map
          (fun x => x.emissions)).sum)
      else none := by
  rw [emissions, lookup_s_pair_prefix, lookup_s_regionMap]
  intro e he
  simp only [List.mem_map] at he
  obtain ⟨x, _, rfl⟩ := he
  exact ⟨x.1, x.2, simple_exports em pd x.1 x.2, rfl⟩

/-- The three simple-flow pair entries are always present in the emissions
dictionary, holding their `simple_exports` values. -/
theorem emissions_lookup_simple (df : List EmRow) (pd : Dict) :
    List.lookup (PyKey.p "QLD1" "NSW1") (emissions df pd) =
      some (simple_exports df pd "QLD1" "NSW1") ∧
    List.lookup (PyKey.p "SA1" "VIC1") (emissions df pd) =
      some (simple_exports df pd "SA1" "VIC1") ∧
    List.lookup (PyKey.p "TAS1" "VIC1") (emissions df pd) =
      some (simple_exports df pd "TAS1" "VIC1") :=
  ⟨rfl, rfl, rfl⟩

/-- When the demand back-calculation succeeds, the rest of `solve_flows`
cannot fail: the system is assembled and the result frame is returned, with
the three simple edges carrying their `simple_exports` values and the five
solved edges read from whatever the solver returns on the assembled
system. -/
theorem solve_flows_ok_shape (em : List EmRow) (ic : List IcRow)
    (dd : DemandDict) (hd : nem_demand (power em ic) = Except.ok dd) :
    ∃ s, solveSystem (power em ic) dd (emissions em (power em ic)) =
        Except.ok s ∧
      ∀ L : Solver, solve_flows em ic L =
        Except.ok (some (flowRows (L s.1 s.2)
          (simple_exports em (power em ic) "QLD1" "NSW1")
          (simple_exports em (power em ic) "TAS1" "VIC1")
          (simple_exports em (power em ic) "SA1" "VIC1"))) := by
  obtain ⟨hN, hQ, hS, hT, hV, hQN, hVN, hNV, hNQ, hVS, hSV, hVT, hTV⟩ :=
    nem_demand_ok_keys _ _ hd
  obtain ⟨pNQ, hpNQ⟩ := Option.isSome_iff_exists.mp hNQ
  obtain ⟨pNV, hpNV⟩ := Option.isSome_iff_exists.mp hNV
  obtain ⟨pVT, hpVT⟩ := Option.isSome_iff_exists.mp hVT
  obtain ⟨pVS, hpVS⟩ := Option.isSome_iff_exists.mp hVS
  obtain ⟨pVN, hpVN⟩ := Option.isSome_iff_exists.mp hVN
  have hmem : ∀ r, (List.lookup (PyKey.s r) (power em ic)).isSome = true →
      r ∈ dedupKeys (em.map (fun x => x.network_region)) := by
    intro r hr
    rw [lookup_s_power] at hr
    by_contra hc
    simp [hc] at hr
  obtain ⟨eQNl, eSVl, eTVl⟩ := emissions_lookup_simple em (power em ic)
  have heN := lookup_s_emissions em (power em ic) "NSW1"
  rw [if_pos (hmem _ hN)] at heN
  have heQ := lookup_s_emissions em (power em ic) "QLD1"
  rw [if_pos (hmem _ hQ)] at heQ
  have heS := lookup_s_emissions em (power em ic) "SA1"
  rw [if_pos (hmem _ hS)] at heS
  have heT := lookup_s_emissions em (power em ic) "TAS1"
  rw [if_pos (hmem _ hT)] at heT
  have heV := lookup_s_emissions em (power em ic) "VIC1"
  rw [if_pos (hmem _ hV)] at heV
  have hsys : ∃ s, solveSystem (power em ic) dd
      (emissions em (power em ic)) = Except.ok s := by
    simp only [solveSystem, buildA, buildB, getK, hpNQ, hpNV, hpVT, hpVS,
      hpVN, heN, heQ, heS, heT, heV, eQNl, eSVl, eTVl, bind, Except.bind]
    exact ⟨_, rfl⟩
  obtain ⟨s, hs⟩ := hsys
  refine ⟨s, hs, ?_⟩
  intro L
  simp only [solve_flows, hd, hs, getK, eQNl, eSVl, eTVl, bind, Except.bind]

/-! ### Claim theorems -/

/-- C9 counterexample: a two-day backfill (`days=1`, the source default)
over days whose pipeline raises — as `run_and_store_emission_flows` does
for every day with results — invokes the pipeline once, not `N + 1 = 2`
times: day `-1` is never visited and the exception propagates out of the
loop. -/
theorem run_emission_update_day_aborts_on_raise :
    (run_emission_update_day exRunDayRaises 1 0).1 = [0] ∧
    ¬(run_emission_update_day exRunDayRaises 1 0).1.length = 1 + 1 ∧
    (-1 : ℤ) ∉ (run_emission_update_day exRunDayRaises 1 0).1 ∧
    (run_emission_update_day exRunDayRaises 1 0).2 =
      Except.error
        (PyErr.valueError "The truth value of a DataFrame is ambiguous.") := by
  have h : run_emission_update_day exRunDayRaises 1 0 =
      ([0], Except.error
        (PyErr.valueError "The truth value of a DataFrame is ambiguous.")) := by
    rw [run_emission_update_day, dayLoopRun,
      dif_pos (by norm_num : (0 : ℤ) - ((1 : ℕ) : ℤ) ≤ 0)]
    rfl
  refine ⟨by rw [h], by rw [h]; decide, by rw [h]; decide, by rw [h]⟩

/-- C9 amended: when every per-day invocation in the range returns
normally, `run_emission_update_day(days=N, day=D)` invokes the per-day
pipeline exactly `N + 1` times, once for each day of the closed range from
`D` backward to `D - N` in descending order, each invocation a function of
its day alone; the source defaults the day count to 1. The loop body has
no exception handling, so an invocation that raises aborts the loop: the
exception propagates and no further day is invoked. -/
theorem run_emission_update_day_invocations {α : Type} :
    (∀ (runDay : ℤ → Except PyErr α) (N : ℕ) (D : ℤ),
      (∀ d : ℤ, D - (N : ℤ) ≤ d → d ≤ D → ∃ a, runDay d = Except.ok a) →
      (run_emission_update_day runDay N D).1 =
        (List.range (N + 1)).map (fun i : ℕ => D - (i : ℤ)) ∧
      ∃ rs : List α, (run_emission_update_day runDay N D).2 =
        Except.ok rs ∧ rs.length = N + 1) ∧
    (∀ (runDay : ℤ → Except PyErr α) (D : ℤ) (e : PyErr) (M : ℕ),
      runDay D = Except.error e →
      run_emission_update_day runDay M D = ([D], Except.error e)) ∧
    (∀ (runDay : ℤ → Except PyErr α) (D : ℤ),
      run_emission_update_day_default runDay D =
        run_emission_update_day runDay 1 D) := by
  refine ⟨?_, ?_, fun runDay D => rfl⟩
  · intro runDay N D hok
    exact dayLoopRun_ok runDay N D hok
  · intro runDay D e M he
    rw [run_emission_update_day, dayLoopRun,
      dif_pos (by omega : (D : ℤ) - ((M : ℕ) : ℤ) ≤ D), he]

/-- C9 amended witness: the always-normal pipeline over the default
two-day range visits days 0 and -1 in order with two results. -/
theorem run_emission_update_day_invocations_witness :
    (run_emission_update_day exRunDayOk 1 0).1 =
      (List.range (1 + 1)).map (fun i : ℕ => (0 : ℤ) - (i : ℤ)) ∧
    ∃ rs : List ℤ, (run_emission_update_day exRunDayOk 1 0).2 =
      Except.ok rs ∧ rs.length = 1 + 1 :=
  run_emission_update_day_invocations.1 exRunDayOk 1 0
    (fun d _ _ => ⟨d, rfl⟩)

/-- C5: evaluating the persist step on its two input shapes. When
`calc_day` returns an actual frame, the guard `not emissions_day` calls
`bool(DataFrame)`, which raises `ValueError`: the exception surfaces to the
caller and nothing is inserted, for empty and non-empty frames alike. When
`calc_day` returns `None`, the warning path returns without persisting. -/
theorem run_and_store_df_truth_raises (df : List MergedRow)
    (insert : List MergedRow → ℕ) :
    run_and_store_emission_flows (some df) insert =
      Except.error
        (PyErr.valueError "The truth value of a DataFrame is ambiguous.") ∧
    run_and_store_emission_flows none insert = Except.ok 0 := by
  constructor <;> rfl

/-- C1 counterexample: with telemetry rows in both directions of the pair
(`generated(NSW1→QLD1)=150`, `generated(QLD1→NSW1)=40`), the reconciled
dictionary maps both directed keys to 0 — the renamed negated copy
overrides the forward sums in the `{**dx, **dy}` merge — not to the
claimed 110/0 net. -/
theorem interconnector_dict_both_directions_zero :
    List.lookup ("NSW1", "QLD1") (interconnector_dict exIcBoth) = some 0 ∧
    List.lookup ("QLD1", "NSW1") (interconnector_dict exIcBoth) = some 0 ∧
    ¬(List.lookup ("NSW1", "QLD1") (interconnector_dict exIcBoth) = some 110 ∨
      List.lookup ("QLD1", "NSW1") (interconnector_dict exIcBoth) = some 110) := by
  norm_num +decide [interconnector_dict, icGroups, dedupKeys, exIcBoth,
    List.lookup]

/-- C2 counterexample: with a failing dense solve on every interval of a
two-interval day, each interval still contributes an entry to the results
dictionary, holding a three-row frame (the simple edges), rather than being
skipped with no entry. -/
theorem solve_fail_still_contributes_entry :
    Except.map (fun l => l.map (fun e => (e.1, Option.map List.length e.2)))
        (calculate_emission_flows
          [⟨0, exEm, exIc⟩, ⟨5, exEm, exIc⟩] solverFail) =
      Except.ok [(0, some 3), (5, some 3)] := by
  obtain ⟨s, hs⟩ := solveSystem_exEm_ok
  simp [calculate_emission_flows, solve_flows, nem_demand_exEm_eval, hs,
    solverFail, getK_em_QN_eval, getK_em_TV_eval, getK_em_SV_eval, flowRows,
    beq_decide, Except.map, Except.bind, bind]

/-- C3 counterexample: on the degenerate interval (zero NSW1 demand and
zero NSW1→QLD1 flow), the coefficient matrix handed to the solver holds
NaN at the intensity cell (row 5, column of `n`), and a solver that fails
exactly on NaN matrices does fail there — so NaN is not replaced with 0 in
the coefficient matrix before the solve. -/
theorem coefficient_matrix_nan_reaches_solver :
    Except.map (fun s => getCell s.1 5 3)
        (Except.bind (nem_demand (power exEm3 exIc3))
          (fun dd => solveSystem (power exEm3 exIc3) dd
            (emissions exEm3 (power exEm3 exIc3)))) =
      Except.ok FVal.nan ∧
    Except.map (Option.map List.length)
        (solve_flows exEm3 exIc3 solverProbe) =
      Except.ok (some 3) := by
  constructor
  · rw [nem_demand_exEm3_eval]
    rw [emissions_exEm3_eval, power_exEm3_eval]
    norm_num +decide [solveSystem, buildA, buildB, getK, List.lookup,
      fill_row, fill_constant, varIdx, var_dict, zerosMat, setCell, getCell,
      qdivF, cleanNanVec, Except.map, Except.bind, bind]
  · simp only [solve_flows, nem_demand_exEm3_eval]
    rw [emissions_exEm3_eval, power_exEm3_eval]
    norm_num +decide [solveSystem, buildA, buildB, getK, List.lookup,
      fill_row, fill_constant, varIdx, var_dict, zerosMat, setCell, getCell,
      qdivF, cleanNanVec, solverProbe, matHasNan, flowRows, Except.map,
      Except.bind, bind]

/-- C6 counterexample: running `solve_flows` with two different solvers,
the three edges QLD1→NSW1, TAS1→VIC1 and SA1→VIC1 keep their
solver-independent simple-export values while a solved edge tracks the
solution vector — three edges, not exactly two, bypass the solve. -/
theorem three_simple_edges_bypass_solver :
    (Except.map (Option.map (List.lookup ("QLD1", "NSW1")))
        (solve_flows exEm exIc solverOne) =
      Except.ok (some (some (FVal.fin (5 / 9)))) ∧
     Except.map (Option.map (List.lookup ("QLD1", "NSW1")))
        (solve_flows exEm exIc solverTwo) =
      Except.ok (some (some (FVal.fin (5 / 9))))) ∧
    (Except.map (Option.map (List.lookup ("TAS1", "VIC1")))
        (solve_flows exEm exIc solverOne) =
      Except.ok (some (some (FVal.fin (5 / 3)))) ∧
     Except.map (Option.map (List.lookup ("TAS1", "VIC1")))
        (solve_flows exEm exIc solverTwo) =
      Except.ok (some (some (FVal.fin (5 / 3))))) ∧
    (Except.map (Option.map (List.lookup ("SA1", "VIC1")))
        (solve_flows exEm exIc solverOne) =
      Except.ok (some (some (FVal.fin (5 / 4)))) ∧
     Except.map (Option.map (List.lookup ("SA1", "VIC1")))
        (solve_flows exEm exIc solverTwo) =
      Except.ok (some (some (FVal.fin (5 / 4))))) ∧
    (Except.map (Option.map (List.lookup ("NSW1", "QLD1")))
        (solve_flows exEm exIc solverOne) =
      Except.ok (some (some (FVal.fin 1))) ∧
     Except.map (Option.map (List.lookup ("NSW1", "QLD1")))
        (solve_flows exEm exIc solverTwo) =
      Except.ok (some (some (FVal.fin 2)))) := by
  obtain ⟨s, hs⟩ := solveSystem_exEm_ok
  simp [solve_flows, nem_demand_exEm_eval, hs, solverOne, solverTwo,
    getK_em_QN_eval, getK_em_TV_eval, getK_em_SV_eval, flowRows,
    List.replicate, List.getD, List.get?, beq_decide, Except.map,
    Except.bind, bind, List.lookup]

/-- C4: for every power dictionary containing generation totals for all
five regions and all eight directed interconnector flows, `nem_demand`
returns for each region exactly generation plus credited inbound flow minus
debited outbound flow, deterministically in exact arithmetic — in
particular demand(QLD1) = generation(QLD1) + flow(NSW1→QLD1) −
flow(QLD1→NSW1). -/
theorem nem_demand_flow_balance (p : Dict)
    (gN gQ gS gT gV fQN fVN fNV fNQ fVS fSV fVT fTV : ℚ)
    (hgN : List.lookup (PyKey.s "NSW1") p = some gN)
    (hfQN : List.lookup (PyKey.p "QLD1" "NSW1") p = some fQN)
    (hfVN : List.lookup (PyKey.p "VIC1" "NSW1") p = some fVN)
    (hfNV : List.lookup (PyKey.p "NSW1" "VIC1") p = some fNV)
    (hfNQ : List.lookup (PyKey.p "NSW1" "QLD1") p = some fNQ)
    (hgQ : List.lookup (PyKey.s "QLD1") p = some gQ)
    (hgS : List.lookup (PyKey.s "SA1") p = some gS)
    (hfVS : List.lookup (PyKey.p "VIC1" "SA1") p = some fVS)
    (hfSV : List.lookup (PyKey.p "SA1" "VIC1") p = some fSV)
    (hgT : List.lookup (PyKey.s "TAS1") p = some gT)
    (hfVT : List.lookup (PyKey.p "VIC1" "TAS1") p = some fVT)
    (hfTV : List.lookup (PyKey.p "TAS1" "VIC1") p = some fTV)
    (hgV : List.lookup (PyKey.s "VIC1") p = some gV) :
    nem_demand p = Except.ok
      { NSW1 := gN + fQN + fVN - fNV - fNQ
        QLD1 := gQ + fNQ - fQN
        SA1 := gS + fVS - fSV
        TAS1 := gT + fVT - fTV
        VIC1 := gV + fNV + fSV + fTV - fVN - fVT - fVS } :=
  nem_demand_eval p gN gQ gS gT gV fQN fVN fNV fNQ fVS fSV fVT fTV
    hgN hfQN hfVN hfNV hfNQ hgQ hgS hfVS hfSV hgT hfVT hfTV hgV

/-- C4 witness: the balance identity evaluated on a concrete dictionary
with thirteen distinct entries. -/
theorem nem_demand_flow_balance_witness :
    nem_demand exPowerDict = Except.ok
      { NSW1 := 1 + 6 + 7 - 8 - 9, QLD1 := 2 + 9 - 6, SA1 := 3 + 10 - 11,
        TAS1 := 4 + 12 - 13, VIC1 := 5 + 8 + 11 + 13 - 7 - 12 - 10 } :=
  nem_demand_flow_balance exPowerDict 1 2 3 4 5 6 7 8 9 10 11 12 13
    rfl rfl rfl rfl rfl rfl rfl rfl rfl rfl rfl rfl rfl

/-- C10: for every power dictionary containing all five region generation
entries and all eight directed flows, the demands returned by `nem_demand`
sum to the sum of the five generation entries — every flow term credited to
one region is debited from another, so all flow terms cancel pairwise. -/
theorem nem_demand_total_conservation (p : Dict)
    (gN gQ gS gT gV fQN fVN fNV fNQ fVS fSV fVT fTV : ℚ)
    (hgN : List.lookup (PyKey.s "NSW1") p = some gN)
    (hfQN : List.lookup (PyKey.p "QLD1" "NSW1") p = some fQN)
    (hfVN : List.lookup (PyKey.p "VIC1" "NSW1") p = some fVN)
    (hfNV : List.lookup (PyKey.p "NSW1" "VIC1") p = some fNV)
    (hfNQ : List.lookup (PyKey.p "NSW1" "QLD1") p = some fNQ)
    (hgQ : List.lookup (PyKey.s "QLD1") p = some gQ)
    (hgS : List.lookup (PyKey.s "SA1") p = some gS)
    (hfVS : List.lookup (PyKey.p "VIC1" "SA1") p = some fVS)
    (hfSV : List.lookup (PyKey.p "SA1" "VIC1") p = some fSV)
    (hgT : List.lookup (PyKey.s "TAS1") p = some gT)
    (hfVT : List.lookup (PyKey.p "VIC1" "TAS1") p = some fVT)
    (hfTV : List.lookup (PyKey.p "TAS1" "VIC1") p = some fTV)
    (hgV : List.lookup (PyKey.s "VIC1") p = some gV) :
    ∃ d, nem_demand p = Except.ok d ∧
      d.NSW1 + d.QLD1 + d.SA1 + d.TAS1 + d.VIC1 =
        gN + gQ + gS + gT + gV :=
  ⟨_, nem_demand_eval p gN gQ gS gT gV fQN fVN fNV fNQ fVS fSV fVT fTV
      hgN hfQN hfVN hfNV hfNQ hgQ hgS hfVS hfSV hgT hfVT hfTV hgV,
    by
      show (gN + fQN + fVN - fNV - fNQ) + (gQ + fNQ - fQN) +
          (gS + fVS - fSV) + (gT + fVT - fTV) +
          (gV + fNV + fSV + fTV - fVN - fVT - fVS) =
        gN + gQ + gS + gT + gV
      ring⟩

/-- C10 witness: total conservation evaluated on the concrete
dictionary. -/
theorem nem_demand_total_conservation_witness :
    ∃ d, nem_demand exPowerDict = Except.ok d ∧
      d.NSW1 + d.QLD1 + d.SA1 + d.TAS1 + d.VIC1 = 1 + 2 + 3 + 4 + 5 :=
  nem_demand_total_conservation exPowerDict 1 2 3 4 5 6 7 8 9 10 11 12 13
    rfl rfl rfl rfl rfl rfl rfl rfl rfl rfl rfl rfl rfl

/-- C7: whenever a required region's generation entry is absent from the
power dictionary, `nem_demand` raises; `solve_flows` catches the exception
and returns `None` for the interval, and the per-interval loop carries on
with the remaining intervals unchanged. -/
theorem nem_demand_missing_region_skips (em : List EmRow) (ic : List IcRow)
    (r : String) (hr : r ∈ ["NSW1", "QLD1", "SA1", "TAS1", "VIC1"])
    (hm : List.lookup (PyKey.s r) (power em ic) = none) (L : Solver)
    (dt : ℤ) (rest : List Interval) :
    (∃ e, nem_demand (power em ic) = Except.error e) ∧
    solve_flows em ic L = Except.ok none ∧
    calculate_emission_flows ({ dt := dt, em := em, ic := ic } :: rest) L =
      Except.map (fun rs => ((dt, none) :: rs))
        (calculate_emission_flows rest L) := by
  have herr : ∃ e, nem_demand (power em ic) = Except.error e := by
    cases hok : nem_demand (power em ic) with
    | error e => exact ⟨e, rfl⟩
    | ok d =>
      have hk := nem_demand_ok_keys _ _ hok
      fin_cases hr <;> simp_all
  obtain ⟨e, he⟩ := herr
  have hsf : solve_flows em ic L = Except.ok none := by
    simp only [solve_flows, he]
  refine ⟨⟨e, he⟩, hsf, ?_⟩
  simp only [calculate_emission_flows, hsf]
  cases calculate_emission_flows rest L <;>
    simp [Except.map, Except.bind, bind]

/-- C7 witness: the TAS1 generation entry is absent from the example frame
missing that region, the demand step raises, the interval yields `None`,
and an empty tail is processed unchanged. -/
theorem nem_demand_missing_region_skips_witness :
    (∃ e, nem_demand (power exEmMissing exIc) = Except.error e) ∧
    solve_flows exEmMissing exIc solverOne = Except.ok none ∧
    calculate_emission_flows
        [{ dt := 0, em := exEmMissing, ic := exIc }] solverOne =
      Except.map (fun rs => ((0, none) :: rs))
        (calculate_emission_flows [] solverOne) :=
  nem_demand_missing_region_skips exEmMissing exIc "TAS1" (by simp)
    (by norm_num +decide [power, interconnector_dict, icGroups, dedupKeys,
      exEmMissing, exIc, List.lookup])
    solverOne 0 []

/-- C1 amended: reconciliation never subtracts opposing telemetry. With
rows in both directions of a pair, the renamed negated copy overrides both
forward sums, leaving `max(-g, 0)` per direction; with a row in one
direction only, the two directed entries are the clipped value and its
clipped negation, of which at most one is positive. -/
theorem interconnector_dict_reconciliation (A B : String) (hAB : A ≠ B)
    (g1 g2 g : ℚ) :
    (List.lookup (A, B) (interconnector_dict [⟨A, B, g1⟩, ⟨B, A, g2⟩]) =
        some (max (-g1) 0) ∧
     List.lookup (B, A) (interconnector_dict [⟨A, B, g1⟩, ⟨B, A, g2⟩]) =
        some (max (-g2) 0)) ∧
    (List.lookup (B, A) (interconnector_dict [⟨A, B, g⟩]) =
        some (max g 0) ∧
     List.lookup (A, B) (interconnector_dict [⟨A, B, g⟩]) =
        some (max (-g) 0) ∧
     (max g 0 = 0 ∨ max (-g) 0 = 0)) := by
  have hBA : B ≠ A := fun h => hAB h.symm
  refine ⟨⟨?_, ?_⟩, ?_, ?_, ?_⟩
  · simp [interconnector_dict, icGroups, dedupKeys, List.lookup, beq_decide,
      hAB, hBA, Prod.ext_iff]
  · simp [interconnector_dict, icGroups, dedupKeys, List.lookup, beq_decide,
      hAB, hBA, Prod.ext_iff]
  · simp [interconnector_dict, icGroups, dedupKeys, List.lookup, beq_decide,
      hAB, hBA, Prod.ext_iff]
  · simp [interconnector_dict, icGroups, dedupKeys, List.lookup, beq_decide,
      hAB, hBA, Prod.ext_iff]
  · rcases le_total g 0 with h | h
    · exact Or.inl (max_eq_right h)
    · exact Or.inr (max_eq_right (neg_nonpos.mpr h))

/-- C1 amended witness: the reconciliation shape evaluated at the concrete
pair of the counterexample. -/
theorem interconnector_dict_reconciliation_witness :
    (List.lookup ("NSW1", "QLD1")
        (interconnector_dict [⟨"NSW1", "QLD1", 150⟩, ⟨"QLD1", "NSW1", 40⟩]) =
        some (max (-150) 0) ∧
     List.lookup ("QLD1", "NSW1")
        (interconnector_dict [⟨"NSW1", "QLD1", 150⟩, ⟨"QLD1", "NSW1", 40⟩]) =
        some (max (-40) 0)) ∧
    (List.lookup ("QLD1", "NSW1")
        (interconnector_dict [⟨"NSW1", "QLD1", 7⟩]) = some (max 7 0) ∧
     List.lookup ("NSW1", "QLD1")
        (interconnector_dict [⟨"NSW1", "QLD1", 7⟩]) = some (max (-7) 0) ∧
     (max (7 : ℚ) 0 = 0 ∨ max (-(7 : ℚ)) 0 = 0)) :=
  interconnector_dict_reconciliation "NSW1" "QLD1" (by decide) 150 40 7

/-- C2 amended: when the dense solve fails on an interval whose demand step
succeeded, the interval is not skipped — it contributes a frame holding
exactly the three simple edges — and the remaining intervals are processed
unchanged. -/
theorem solve_fail_partial_frame (em : List EmRow) (ic : List IcRow)
    (dd : DemandDict) (hd : nem_demand (power em ic) = Except.ok dd)
    (L : Solver) (hfail : ∀ a b, L a b = none) (dt : ℤ)
    (rest : List Interval) :
    solve_flows em ic L = Except.ok (some
      [(("QLD1", "NSW1"),
        FVal.fin (simple_exports em (power em ic) "QLD1" "NSW1")),
       (("TAS1", "VIC1"),
        FVal.fin (simple_exports em (power em ic) "TAS1" "VIC1")),
       (("SA1", "VIC1"),
        FVal.fin (simple_exports em (power em ic) "SA1" "VIC1"))]) ∧
    calculate_emission_flows ({ dt := dt, em := em, ic := ic } :: rest) L =
      Except.map (fun rs => ((dt, some
        [(("QLD1", "NSW1"),
          FVal.fin (simple_exports em (power em ic) "QLD1" "NSW1")),
         (("TAS1", "VIC1"),
          FVal.fin (simple_exports em (power em ic) "TAS1" "VIC1")),
         (("SA1", "VIC1"),
          FVal.fin (simple_exports em (power em ic) "SA1" "VIC1"))]) :: rs))
        (calculate_emission_flows rest L) := by
  obtain ⟨s, _, hL⟩ := solve_flows_ok_shape em ic dd hd
  have h1 := hL L
  rw [hfail] at h1
  have h2 : solve_flows em ic L = Except.ok (some
      [(("QLD1", "NSW1"),
        FVal.fin (simple_exports em (power em ic) "QLD1" "NSW1")),
       (("TAS1", "VIC1"),
        FVal.fin (simple_exports em (power em ic) "TAS1" "VIC1")),
       (("SA1", "VIC1"),
        FVal.fin (simple_exports em (power em ic) "SA1" "VIC1"))]) := h1
  refine ⟨h2, ?_⟩
  simp only [calculate_emission_flows, h2]
  cases calculate_emission_flows rest L <;>
    simp [Except.map, Except.bind, bind]

/-- C2 amended witness: the partial three-row frame on the concrete
example interval with a failing solver, followed by an empty tail. -/
theorem solve_fail_partial_frame_witness :
    solve_flows exEm exIc solverFail = Except.ok (some
      [(("QLD1", "NSW1"),
        FVal.fin (simple_exports exEm (power exEm exIc) "QLD1" "NSW1")),
       (("TAS1", "VIC1"),
        FVal.fin (simple_exports exEm (power exEm exIc) "TAS1" "VIC1")),
       (("SA1", "VIC1"),
        FVal.fin (simple_exports exEm (power exEm exIc) "SA1" "VIC1"))]) ∧
    calculate_emission_flows
        [{ dt := 0, em := exEm, ic := exIc }] solverFail =
      Except.map (fun rs => ((0, some
        [(("QLD1", "NSW1"),
          FVal.fin (simple_exports exEm (power exEm exIc) "QLD1" "NSW1")),
         (("TAS1", "VIC1"),
          FVal.fin (simple_exports exEm (power exEm exIc) "TAS1" "VIC1")),
         (("SA1", "VIC1"),
          FVal.fin (simple_exports exEm (power exEm exIc) "SA1" "VIC1"))]) ::
          rs))
        (calculate_emission_flows [] solverFail) :=
  solve_fail_partial_frame exEm exIc ⟨20, -24, -6, -2, 55⟩
    nem_demand_exEm_eval solverFail (fun _ _ => rfl) 0 []

/-- C3 amended: the NaN replacement of the numeric policy is applied to
the constant vector only — `cleanNanVec` leaves no NaN in it, the system
handed to the solver pairs the raw coefficient matrix with the cleaned
vector, and on the degenerate example interval the raw matrix reaching the
solver still holds NaN at the intensity cell. -/
theorem nan_policy_constant_vector_only :
    (∀ b : List FVal, ∀ x ∈ cleanNanVec b, x ≠ FVal.nan) ∧
    (∀ (pd : Dict) (dd : DemandDict) (ed : Dict),
      solveSystem pd dd ed =
        Except.bind (buildA pd dd) (fun a =>
          Except.map (fun b => (a, cleanNanVec b)) (buildB ed))) ∧
    Except.map (fun s => getCell s.1 5 3)
        (Except.bind (nem_demand (power exEm3 exIc3))
          (fun dd => solveSystem (power exEm3 exIc3) dd
            (emissions exEm3 (power exEm3 exIc3)))) =
      Except.ok FVal.nan := by
  refine ⟨?_, ?_, ?_⟩
  · intro b x hx
    rw [cleanNanVec, List.mem_map] at hx
    obtain ⟨y, _, rfl⟩ := hx
    by_cases h : y == FVal.nan
    · simp [h]
    · simp [h]
      intro hy
      exact h (by simp [hy])
  · intro pd dd ed
    cases hA : buildA pd dd <;> cases hB : buildB ed <;>
      simp [solveSystem, hA, hB, Except.map, Except.bind, bind]
  · rw [nem_demand_exEm3_eval]
    rw [emissions_exEm3_eval, power_exEm3_eval]
    norm_num +decide [solveSystem, buildA, buildB, getK, List.lookup,
      fill_row, fill_constant, varIdx, var_dict, zerosMat, setCell, getCell,
      qdivF, cleanNanVec, Except.map, Except.bind, bind]

/-- C3 amended witness: a cleaned vector member is not NaN, on a concrete
vector holding a NaN. -/
theorem nan_policy_constant_vector_only_witness :
    FVal.fin 3 ≠ FVal.nan :=
  nan_policy_constant_vector_only.1 [FVal.nan, FVal.fin 3] (FVal.fin 3)
    (by simp [cleanNanVec])

/-- C6 amended: after a successful demand step, the output frame carries
exactly three simple edges (QLD1→NSW1, TAS1→VIC1, SA1→VIC1) holding
solver-independent `simple_exports` values, while the remaining five edges
are read from fixed positions of the solution vector whenever the solver
returns one. -/
theorem simple_and_solved_edge_partition (em : List EmRow)
    (ic : List IcRow) (dd : DemandDict)
    (hd : nem_demand (power em ic) = Except.ok dd) (L : Solver) :
    (∀ (res : List FVal) (q t v : ℚ), flowRows (some res) q t v =
      [(("NSW1", "QLD1"), res.getD 6 (FVal.fin 0)),
       (("VIC1", "NSW1"), res.getD 5 (FVal.fin 0)),
       (("NSW1", "VIC1"), res.getD 7 (FVal.fin 0)),
       (("VIC1", "SA1"), res.getD 8 (FVal.fin 0)),
       (("VIC1", "TAS1"), res.getD 9 (FVal.fin 0)),
       (("QLD1", "NSW1"), FVal.fin q), (("TAS1", "VIC1"), FVal.fin t),
       (("SA1", "VIC1"), FVal.fin v)]) ∧
    ∃ s, solveSystem (power em ic) dd (emissions em (power em ic)) =
        Except.ok s ∧
      solve_flows em ic L = Except.ok (some (flowRows (L s.1 s.2)
        (simple_exports em (power em ic) "QLD1" "NSW1")
        (simple_exports em (power em ic) "TAS1" "VIC1")
        (simple_exports em (power em ic) "SA1" "VIC1"))) := by
  refine ⟨fun res q t v => rfl, ?_⟩
  obtain ⟨s, hs, hL⟩ := solve_flows_ok_shape em ic dd hd
  exact ⟨s, hs, hL L⟩

/-- C6 amended witness: the partition shape on the concrete example
interval with the all-ones solver. -/
theorem simple_and_solved_edge_partition_witness :
    (∀ (res : List FVal) (q t v : ℚ), flowRows (some res) q t v =
      [(("NSW1", "QLD1"), res.getD 6 (FVal.fin 0)),
       (("VIC1", "NSW1"), res.getD 5 (FVal.fin 0)),
       (("NSW1", "VIC1"), res.getD 7 (FVal.fin 0)),
       (("VIC1", "SA1"), res.getD 8 (FVal.fin 0)),
       (("VIC1", "TAS1"), res.getD 9 (FVal.fin 0)),
       (("QLD1", "NSW1"), FVal.fin q), (("TAS1", "VIC1"), FVal.fin t),
       (("SA1", "VIC1"), FVal.fin v)]) ∧
    ∃ s, solveSystem (power exEm exIc) ⟨20, -24, -6, -2, 55⟩
        (emissions exEm (power exEm exIc)) = Except.ok s ∧
      solve_flows exEm exIc solverOne = Except.ok (some
        (flowRows (solverOne s.1 s.2)
          (simple_exports exEm (power exEm exIc) "QLD1" "NSW1")
          (simple_exports exEm (power exEm exIc) "TAS1" "VIC1")
          (simple_exports exEm (power exEm exIc) "SA1" "VIC1"))) :=
  simple_and_solved_edge_partition exEm exIc ⟨20, -24, -6, -2, 55⟩
    nem_demand_exEm_eval solverOne

/-- The keys surviving an index merge are exactly the left keys that also
occur on the right. -/
theorem mergeIndex_keys {K A B : Type} [BEq K] (l : List (K × A))
    (r : List (K × B)) :
    (mergeIndex l r).map Prod.fst =
      (l.map Prod.fst).filter (fun k => (List.lookup k r).isSome) := by
  induction l with
  | nil => rfl
  | cons e l ih =>
    rw [mergeIndex, List.filterMap_cons]
    rw [mergeIndex] at ih
    cases hx : List.lookup e.1 r with
    | none => simp [hx, List.filter_cons, ih]
    | some b => simp [hx, List.filter_cons, ih]

/-- An inner index merge with an empty side yields no rows. -/
theorem mergeIndex_empty {K A B : Type} [BEq K] (l : List (K × A))
    (r : List (K × B)) (h : l = [] ∨ r = []) : mergeIndex l r = [] := by
  rcases h with rfl | rfl
  · rfl
  · induction l with
    | nil => rfl
    | cons e l ih =>
      rw [mergeIndex, List.filterMap_cons]
      rw [mergeIndex] at ih
      simp [List.lookup_nil, ih]

/-- C8: a day's final frame is the inner merge of the emissions series and
the energy series on the `(trading_interval, network_id, network_region)`
index: its keys are exactly the emission-side keys that also occur on the
energy side, and if either series is empty the day yields no rows. -/
theorem calc_day_inner_merge (results : List (ℤ × Option DFr))
    (ic : List IcRow) (day : ℤ) (df : List MergedRow)
    (h : calc_day results ic day = some df) :
    df = mergeIndex (flow_series_clean (concatRows results) day)
      (region_flows ic day) ∧
    df.map Prod.fst =
      ((flow_series_clean (concatRows results) day).map Prod.fst).filter
        (fun k => (List.lookup k (region_flows ic day)).isSome) ∧
    ((flow_series_clean (concatRows results) day = [] ∨
        region_flows ic day = []) → df = []) := by
  have hdf : df = mergeIndex (flow_series_clean (concatRows results) day)
      (region_flows ic day) := by
    rw [calc_day] at h
    split at h
    · exact absurd h (by simp)
    · split at h
      · exact absurd h (by simp)
      · exact (Option.some.inj h).symm
  refine ⟨hdf, ?_, ?_⟩
  · rw [hdf, mergeIndex_keys]
  · intro hemp
    rw [hdf]
    exact mergeIndex_empty _ _ hemp

/-- C8 witness: a one-interval day with no interconnector telemetry — the
energy series is empty, so the merged day frame is empty. -/
theorem calc_day_inner_merge_witness :
    ([] : List MergedRow) = mergeIndex
      (flow_series_clean
        (concatRows [(0, some [(("QLD1", "NSW1"), FVal.fin 1)])]) 0)
      (region_flows [] 0) ∧
    ([] : List MergedRow).map Prod.fst =
      ((flow_series_clean
          (concatRows [(0, some [(("QLD1", "NSW1"), FVal.fin 1)])]) 0).map
        Prod.fst).filter
        (fun k => (List.lookup k (region_flows [] 0)).isSome) ∧
    ((flow_series_clean
        (concatRows [(0, some [(("QLD1", "NSW1"), FVal.fin 1)])]) 0 = [] ∨
      region_flows [] 0 = []) → ([] : List MergedRow) = []) :=
  calc_day_inner_merge [(0, some [(("QLD1", "NSW1"), FVal.fin 1)])] [] 0 []
    (by simp [calc_day, region_flows, icGroups, dedupKeys, mergeIndex,
      List.lookup, flow_series_clean, concatRows])

end OpenNEM
